import Mathlib

/-!
Verification of the voice-agent backend (`src/frontend/backend/main.py`).

Part 1: the text chunker `split_text_for_murf(text, limit)`.

Strings are modelled as `List Char`.  Python `str.strip()` and the regex
class `\s` are modelled over the six ASCII whitespace characters
`" \t\n\r\x0b\x0c"` (the Unicode extension of `\s` is out of scope).
`re.split(r"(?<=[\.\?\!])\s+", text)` is modelled by `reSplit`:
the text is cut at every maximal whitespace run whose preceding character
is one of `.`, `?`, `!`; the run itself is discarded.
-/

/-- ASCII whitespace, as in the Python `str.strip` method and the regex class `\s`. -/
def pyIsSpace (c : Char) : Bool :=
  c = ' ' || c = '\t' || c = '\n' || c = '\r' || c = '\x0b' || c = '\x0c'

/-- Sentence-ending punctuation of the chunker regex: `.`, `?`, `!`. -/
def isPunct (c : Char) : Bool :=
  c = '.' || c = '?' || c = '!'

/-- Python `str.strip()`: drop leading and trailing whitespace. -/
def pyStrip (l : List Char) : List Char :=
  ((l.dropWhile pyIsSpace).reverse.dropWhile pyIsSpace).reverse

/-- Worker for `reSplit`.  `acc` is the current sentence, reversed.
A split happens when the current character is whitespace and the previous
character of the text (head of `acc`) is sentence punctuation; the whole
whitespace run is consumed and a new sentence starts. -/
def reSplitGo : List Char → List Char → List (List Char)
  | [], acc => [acc.reverse]
  | c :: rest, [] => reSplitGo rest [c]
  | c :: rest, p :: acc =>
    if isPunct p && pyIsSpace c then
      (p :: acc).reverse :: reSplitGo (rest.dropWhile pyIsSpace) []
    else
      reSplitGo rest (c :: p :: acc)
termination_by l _ => l.length
decreasing_by
  all_goals simp only [List.length_cons]
  all_goals first
    | omega
    | exact Nat.lt_succ_of_le (List.dropWhile_sublist pyIsSpace).length_le

/-- Model of `re.split(r"(?<=[\.\?\!])\s+", text)`. -/
def reSplit (l : List Char) : List (List Char) :=
  reSplitGo l []

/-- The `while len(s) > limit: out.append(s[:limit]); s = s[limit:]` loop of
`split_text_for_murf`: returns the slices appended and the final remainder.
(For `limit = 0` the Python loop would not terminate; the model returns
`([], s)` there, and every theorem below assumes `0 < limit`.) -/
def hardSplit (limit : Nat) (s : List Char) : List (List Char) × List Char :=
  if h : 0 < limit ∧ limit < s.length then
    (s.take limit :: (hardSplit limit (s.drop limit)).1, (hardSplit limit (s.drop limit)).2)
  else
    ([], s)
termination_by s.length
decreasing_by
  simp only [List.length_drop]
  omega

/-- Python `(1 if cur else 0)`: the separating space accounted for when
`cur` is non-empty. -/
def curSep (cur : List Char) : Nat :=
  if cur = [] then 0 else 1

/-- Python `if cur: out.append(cur)`. -/
def appendIf (out : List (List Char)) (cur : List Char) : List (List Char) :=
  if cur = [] then out else out ++ [cur]

/-- The sentence-accumulation loop of `split_text_for_murf`:
`out`, `cur` are the Python locals, `ss` the remaining sentences; afterwards
`if cur: out.append(cur)`. -/
def buildChunks (limit : Nat) : List (List Char) → List (List Char) → List Char → List (List Char)
  | [], out, cur => appendIf out cur
  | s :: ss, out, cur =>
    if cur.length + s.length + curSep cur ≤ limit then
      buildChunks limit ss out (pyStrip (cur ++ ' ' :: s))
    else
      buildChunks limit ss (appendIf out cur ++ (hardSplit limit s).1) (hardSplit limit s).2

/-- `split_text_for_murf(text, limit=3000)` from `main.py`. -/
def split_text_for_murf (text : List Char) (limit : Nat := 3000) : List (List Char) :=
  if pyStrip text = [] then [[]]
  else if (pyStrip text).length ≤ limit then [pyStrip text]
  else buildChunks limit (reSplit (pyStrip text)) [] []

/-!
Part 2: the chat pipeline of `main.py` (`agent_chat`, history endpoints).

External effects are captured in an `Env` record fixed per request:
capability flags (`HAVE_PYDUB`), presence of the three credentials,
the outcomes of the provider calls, and the generated file names (uuids).
Audio data is modelled symbolically by `Seg`, mirroring the pydub
expressions the code builds.  `agent_chat` is a pure function from the
environment, the request and the current history store to the HTTP
outcome, the new store and the list of files written to `/static`.
-/

/-- A message of `CHAT_HISTORY`: `{"role": ..., "content": ...}`. -/
structure Msg where
  role : String
  content : String
deriving DecidableEq, Repr

/-- `CHAT_HISTORY`: mapping from session id to message list (defaultdict). -/
def Store : Type := String → List Msg

/-- The empty history (defaultdict of empty lists). -/
def emptyStore : Store := fun _ => []

/-- `CHAT_HISTORY[session_id].append(msg)`. -/
def appendMsg (st : Store) (sid : String) (m : Msg) : Store :=
  fun k => if k = sid then st k ++ [m] else st k

/-- `GET /agent/history/{session_id}`: `{"session_id": ..., "messages": ...}`. -/
def get_history (st : Store) (session_id : String) : String × List Msg :=
  (session_id, st session_id)

/-- `DELETE /agent/history/{session_id}`: `CHAT_HISTORY.pop(session_id, None)`,
returns `{"session_id": ..., "cleared": True}`. -/
def clear_history (st : Store) (session_id : String) : (String × Bool) × Store :=
  ((session_id, true), fun k => if k = session_id then [] else st k)

/-- Symbolic audio data, mirroring the pydub expressions in `main.py`. -/
inductive Seg where
  /-- `Sine(freq).to_audio_segment(duration=ms)` -/
  | sine (freq ms : Nat) : Seg
  /-- `seg.apply_gain(db)` -/
  | gain (s : Seg) (db : Int) : Seg
  /-- `AudioSegment.silent(duration=ms)` -/
  | silent (ms : Nat) : Seg
  /-- `a + b` concatenation -/
  | app (a b : Seg) : Seg
  /-- audio decoded from a downloaded URL (`download_mp3`) -/
  | fromUrl (u : String) : Seg
deriving DecidableEq, Repr

/-- Per-request environment: capability flags, credentials, provider-call
outcomes and generated names.  `Except.error ()` models a raised exception. -/
structure Env where
  /-- `HAVE_PYDUB` (load-time capability flag) -/
  havePydub : Bool
  /-- `ASSEMBLYAI_API_KEY` is set -/
  assemblyKey : Bool
  /-- `GEMINI_API_KEY` is set -/
  geminiKey : Bool
  /-- `MURF_API_KEY` is set -/
  murfKey : Bool
  /-- first decode attempt `AudioSegment.from_file(io.BytesIO(raw))` succeeds -/
  decode1 : Bool
  /-- retry decode `AudioSegment.from_file(..., format="webm")` succeeds -/
  decode2 : Bool
  /-- outcome of `transcriber.transcribe(...)`: raised, or `.text or ""` -/
  sttText : Except Unit String
  /-- outcome of `model.generate_content(prompt)` + text extraction, per prompt -/
  llmGen : String → Except Unit String
  /-- outcome of the Murf HTTP call + URL-field extraction, per (text, voice) -/
  murfGen : String → String → Except Unit String
  /-- outcome of `download_mp3(url)`, per url -/
  download : String → Except Unit Seg
  /-- `uuid4().hex` used by `save_audiosegment` on the stitched TTS result -/
  uuidMain : String
  /-- `uuid4().hex` used by `save_audiosegment` inside `fallback_tone_mp3` -/
  uuidFb : String
  /-- `os.getenv("MURF_VOICE_ID", "en-UK-hazel")` -/
  defaultVoiceId : String

/-- `HTTPException(status_code, detail)` reaching the caller. -/
inductive HErr where
  | http (code : Nat) (detail : String)
deriving DecidableEq, Repr

/-- The JSON body returned by `agent_chat` on success. -/
structure ChatResult where
  session_id : String
  transcript : String
  llm_text : String
  audio_url : String
deriving DecidableEq, Repr

/-- Python `s.strip()` on a Lean `String`. -/
def stripStr (s : String) : String :=
  String.mk (pyStrip s.data)

/-- Python `voiceId or DEFAULT_MURF_VOICE_ID`: `None` and the empty string
are falsy. -/
def pyOrDefault (v : Option String) (d : String) : String :=
  match v with
  | none => d
  | some s => if s = "" then d else s

/-- The fixed placeholder substituted when transcription fails. -/
def sttFallbackText : String := "(Sorry, I couldn\u0027t transcribe that.)"

/-- The fixed apology substituted when the LLM call fails. -/
def llmFallbackText : String :=
  "I\u0027m having trouble connecting right now. Please try again in a moment."

/-- STT stage of `agent_chat` (step 2): raise if the key is missing, the
provider call raised, or the stripped transcript is empty; any raise is
absorbed into the fixed placeholder. -/
def sttStage (env : Env) : String :=
  match (if env.assemblyKey then env.sttText else Except.error ()) with
  | Except.error _ => sttFallbackText
  | Except.ok t =>
    let t1 := stripStr t
    if t1 = "" then sttFallbackText else t1

/-- One `"User: ..."`/`"Assistant: ..."` line of the Gemini prompt. -/
def promptLine (m : Msg) : String :=
  (if m.role = "user" then "User" else "Assistant") ++ ": " ++ m.content

/-- The prompt built from the last 8 history messages. -/
def promptOf (history : List Msg) : String :=
  "You are a friendly, concise voice assistant. Keep replies under 120 words.\n\n"
    ++ String.intercalate "\n" (history.map promptLine)
    ++ "\nAssistant:"

/-- LLM stage of `agent_chat` (step 3): raise if the key is missing, the call
raised, or the stripped reply is empty; any raise is absorbed into the fixed
apology. -/
def llmStage (env : Env) (prompt : String) : String :=
  match (if env.geminiKey then env.llmGen prompt else Except.error ()) with
  | Except.error _ => llmFallbackText
  | Except.ok t =>
    let t1 := stripStr t
    if t1 = "" then llmFallbackText else t1

/-- `murf_generate_url(text, voice_id)`: raises when the key is missing,
otherwise the provider-call outcome. -/
def murf_generate_url (env : Env) (text voice : String) : Except Unit String :=
  if env.murfKey then env.murfGen text voice else Except.error ()

/-- Path returned by `save_audiosegment` for a given `uuid4().hex`. -/
def save_audiosegment (uuidHex : String) : String :=
  "/static/reply_" ++ uuidHex ++ ".mp3"

/-- The dual-tone clip built by `fallback_tone_mp3`:
`tone + silence + tone` with `tone = Sine(440).to_audio_segment(600).apply_gain(-6)`
and `silence = AudioSegment.silent(200)`. -/
def fallbackToneSeg : Seg :=
  Seg.app (Seg.app (Seg.gain (Seg.sine 440 600) (-6)) (Seg.silent 200))
    (Seg.gain (Seg.sine 440 600) (-6))

/-- `fallback_tone_mp3()`: returns the audio url and the files written. -/
def fallback_tone_mp3 (env : Env) : String × List (String × Seg) :=
  if env.havePydub then
    (save_audiosegment env.uuidFb, [(save_audiosegment env.uuidFb, fallbackToneSeg)])
  else
    ("", [])

/-- The `for p in parts: seg = download_mp3(murf_generate_url(p, voice))` loop:
first raise wins, otherwise the decoded segments in order. -/
def fetchSegs (env : Env) (voice : String) : List String → Except Unit (List Seg)
  | [] => Except.ok []
  | p :: ps =>
    match murf_generate_url env p voice with
    | Except.error e => Except.error e
    | Except.ok url =>
      match env.download url with
      | Except.error e => Except.error e
      | Except.ok seg =>
        match fetchSegs env voice ps with
        | Except.error e => Except.error e
        | Except.ok segs => Except.ok (seg :: segs)

/-- The body of the TTS `try:` block (step 4 of `agent_chat`): on success the
audio url and the files written; `Except.error ()` models any raise inside
the block (including the `segments[0]`/`parts[0]` IndexError on an empty
list, which cannot occur but is modelled faithfully). -/
def ttsStage (env : Env) (llm_text voice : String) : Except Unit (String × List (String × Seg)) :=
  let parts := (split_text_for_murf llm_text.data 3000).map String.mk
  if env.havePydub then
    match fetchSegs env voice parts with
    | Except.error _ => Except.error ()
    | Except.ok [] => Except.error ()
    | Except.ok (s0 :: rest) =>
      Except.ok (save_audiosegment env.uuidMain,
        [(save_audiosegment env.uuidMain, rest.foldl Seg.app s0)])
  else
    match parts with
    | [] => Except.error ()
    | p :: _ =>
      match murf_generate_url env p voice with
      | Except.error _ => Except.error ()
      | Except.ok url => Except.ok (url, [])

/-- `POST /agent/chat/{session_id}` (`agent_chat` in `main.py`), as a pure
function of the environment, request and store.  Returns the HTTP outcome,
the updated `CHAT_HISTORY` and the files written to `/static`. -/
def agent_chat (env : Env) (session_id : String) (raw : List Nat)
    (voiceId : Option String) (st : Store) :
    Except HErr ChatResult × Store × List (String × Seg) :=
  if raw = [] then
    (Except.error (HErr.http 400 "No audio data received."), st, [])
  else if env.havePydub && !env.decode1 && !env.decode2 then
    (Except.error (HErr.http 500 "Server error"), st, [])
  else
    let transcript_text := sttStage env
    let st1 := appendMsg st session_id { role := "user", content := transcript_text }
    let history := (st1 session_id).drop ((st1 session_id).length - 8)
    let llm_text := llmStage env (promptOf history)
    let st2 := appendMsg st1 session_id { role := "assistant", content := llm_text }
    let voice := pyOrDefault voiceId env.defaultVoiceId
    match ttsStage env llm_text voice with
    | Except.ok (url, files) =>
      (Except.ok ⟨session_id, transcript_text, llm_text, url⟩, st2, files)
    | Except.error _ =>
      (Except.ok ⟨session_id, transcript_text, llm_text, (fallback_tone_mp3 env).1⟩,
        st2, (fallback_tone_mp3 env).2)

/-- The two conditions under which the request fails as a whole: empty
payload, or (with pydub present) both decode attempts raising. -/
def terminalFailure (env : Env) (raw : List Nat) : Prop :=
  raw = [] ∨ (env.havePydub = true ∧ env.decode1 = false ∧ env.decode2 = false)

instance (env : Env) (raw : List Nat) : Decidable (terminalFailure env raw) := by
  unfold terminalFailure
  infer_instance

/-- Transcription fails: missing credential, provider raise, or empty
(after strip) provider result. -/
def sttFails (env : Env) : Prop :=
  env.assemblyKey = false ∨ env.sttText = Except.error () ∨
    (∃ t, env.sttText = Except.ok t ∧ stripStr t = "")

/-- The LLM call fails on every prompt: missing credential, provider raise,
or empty (after strip) provider result. -/
def llmFails (env : Env) : Prop :=
  env.geminiKey = false ∨ ∀ p, env.llmGen p = Except.error () ∨
    (∃ t, env.llmGen p = Except.ok t ∧ stripStr t = "")

/-- A concrete environment for witnesses: pydub present, no credentials,
every provider call raises. -/
def env0 : Env where
  havePydub := true
  assemblyKey := false
  geminiKey := false
  murfKey := false
  decode1 := true
  decode2 := false
  sttText := Except.error ()
  llmGen := fun _ => Except.error ()
  murfGen := fun _ _ => Except.error ()
  download := fun _ => Except.error ()
  uuidMain := "m0"
  uuidFb := "f0"
  defaultVoiceId := "en-UK-hazel"

/-- A concrete environment for witnesses: no pydub, no credentials. -/
def env1 : Env where
  havePydub := false
  assemblyKey := false
  geminiKey := false
  murfKey := false
  decode1 := false
  decode2 := false
  sttText := Except.error ()
  llmGen := fun _ => Except.error ()
  murfGen := fun _ _ => Except.error ()
  download := fun _ => Except.error ()
  uuidMain := "m1"
  uuidFb := "f1"
  defaultVoiceId := "en-UK-hazel"

/-!
Part 3: theorems.  First, helper lemmas about the chunker.
-/

theorem pyIsSpace_space : pyIsSpace ' ' = true := by decide

theorem pyStrip_length_le (l : List Char) : (pyStrip l).length ≤ l.length := by
  unfold pyStrip
  rw [List.length_reverse]
  calc ((l.dropWhile pyIsSpace).reverse.dropWhile pyIsSpace).length
      ≤ (l.dropWhile pyIsSpace).reverse.length := (List.dropWhile_sublist _).length_le
    _ = (l.dropWhile pyIsSpace).length := List.length_reverse _
    _ ≤ l.length := (List.dropWhile_sublist _).length_le

theorem pyStrip_cons_space (s : List Char) : pyStrip (' ' :: s) = pyStrip s := by
  unfold pyStrip
  rw [List.dropWhile_cons, pyIsSpace_space]
  simp

theorem filter_dropWhile_space (l : List Char) :
    (l.dropWhile pyIsSpace).filter (fun c => !pyIsSpace c) =
      l.filter (fun c => !pyIsSpace c) := by
  induction l with
  | nil => rfl
  | cons a l ih =>
    rw [List.dropWhile_cons]
    by_cases h : pyIsSpace a
    · rw [if_pos h, ih, List.filter_cons]
      simp [h]
    · rw [if_neg h]

theorem filter_pyStrip (l : List Char) :
    (pyStrip l).filter (fun c => !pyIsSpace c) = l.filter (fun c => !pyIsSpace c) := by
  unfold pyStrip
  rw [List.filter_reverse, filter_dropWhile_space, List.filter_reverse,
    List.reverse_reverse, filter_dropWhile_space]

theorem hardSplit_flatten (limit : Nat) (s : List Char) :
    (hardSplit limit s).1.flatten ++ (hardSplit limit s).2 = s := by
  unfold hardSplit
  split
  · simp only [List.flatten_cons, List.append_assoc]
    rw [hardSplit_flatten limit (s.drop limit)]
    exact List.take_append_drop limit s
  · simp
termination_by s.length
decreasing_by simp only [List.length_drop]; omega

theorem hardSplit_chunk (limit : Nat) (s : List Char) (hl : 0 < limit) :
    ∀ c ∈ (hardSplit limit s).1, c.length = limit ∧ c ≠ [] := by
  unfold hardSplit
  split
  next h =>
    intro c hc
    rcases List.mem_cons.mp hc with rfl | hc
    · have hlen : (s.take limit).length = limit := by
        rw [List.length_take]; omega
      refine ⟨hlen, ?_⟩
      intro he
      rw [he] at hlen
      simp at hlen
      omega
    · exact hardSplit_chunk limit (s.drop limit) hl c hc
  next => intro c hc; simp at hc
termination_by s.length
decreasing_by simp only [List.length_drop]; omega

theorem hardSplit_rem_le (limit : Nat) (s : List Char) (hl : 0 < limit) :
    (hardSplit limit s).2.length ≤ limit := by
  unfold hardSplit
  split
  next h => exact hardSplit_rem_le limit (s.drop limit) hl
  next h =>
    simp only [not_and, Nat.not_lt] at h
    exact h hl
termination_by s.length
decreasing_by simp only [List.length_drop]; omega

theorem mem_appendIf {c : List Char} {out : List (List Char)} {cur : List Char}
    (hc : c ∈ appendIf out cur) : c ∈ out ∨ (c = cur ∧ cur ≠ []) := by
  unfold appendIf at hc
  split at hc
  · exact Or.inl hc
  next hne =>
    rcases List.mem_append.mp hc with hc | hc
    · exact Or.inl hc
    · exact Or.inr ⟨List.mem_singleton.mp hc, hne⟩

theorem curSep_ne {cur : List Char} (h : cur ≠ []) : curSep cur = 1 := by
  unfold curSep
  rw [if_neg h]

theorem appendIf_ne (out : List (List Char)) {cur : List Char} (h : cur ≠ []) :
    appendIf out cur = out ++ [cur] := by
  unfold appendIf
  rw [if_neg h]

theorem curSep_nil : curSep ([] : List Char) = 0 := rfl

theorem appendIf_nil (out : List (List Char)) : appendIf out [] = out := rfl

theorem buildChunks_mem (limit : Nat) (hl : 0 < limit) (ss : List (List Char)) :
    ∀ out cur, (∀ c ∈ out, c.length ≤ limit ∧ c ≠ []) → cur.length ≤ limit →
      ∀ c ∈ buildChunks limit ss out cur, c.length ≤ limit ∧ c ≠ [] := by
  induction ss with
  | nil =>
    intro out cur hout hcur c hc
    simp only [buildChunks] at hc
    rcases mem_appendIf hc with hc | ⟨rfl, hne⟩
    · exact hout c hc
    · exact ⟨hcur, hne⟩
  | cons s ss ih =>
    intro out cur hout hcur c hc
    simp only [buildChunks] at hc
    split at hc
    next hfit =>
      refine ih out _ hout ?_ c hc
      by_cases hc0 : cur = []
      · subst hc0
        rw [List.nil_append, pyStrip_cons_space]
        have h1 : s.length ≤ limit := by simpa [curSep] using hfit
        exact le_trans (pyStrip_length_le s) h1
      · have h1 : cur.length + s.length + 1 ≤ limit := by rwa [curSep_ne hc0] at hfit
        refine le_trans (pyStrip_length_le _) ?_
        simp only [List.length_append, List.length_cons]
        omega
    next =>
      refine ih _ _ ?_ (hardSplit_rem_le limit s hl) c hc
      intro d hd
      rcases List.mem_append.mp hd with hd | hd
      · rcases mem_appendIf hd with hd | ⟨rfl, hne⟩
        · exact hout d hd
        · exact ⟨hcur, hne⟩
      · have h2 := hardSplit_chunk limit s hl d hd
        exact ⟨le_of_eq h2.1, h2.2⟩

theorem buildChunks_flatten_filter (limit : Nat) (ss : List (List Char)) :
    ∀ out cur, (buildChunks limit ss out cur).flatten.filter (fun c => !pyIsSpace c) =
      out.flatten.filter (fun c => !pyIsSpace c) ++ cur.filter (fun c => !pyIsSpace c)
        ++ ss.flatten.filter (fun c => !pyIsSpace c) := by
  induction ss with
  | nil =>
    intro out cur
    simp only [buildChunks]
    by_cases hc0 : cur = []
    · simp [hc0, appendIf]
    · simp [appendIf_ne _ hc0, List.flatten_append, List.filter_append]
  | cons s ss ih =>
    intro out cur
    simp only [buildChunks]
    have h3 : (hardSplit limit s).1.flatten.filter (fun c => !pyIsSpace c)
        ++ (hardSplit limit s).2.filter (fun c => !pyIsSpace c)
        = s.filter (fun c => !pyIsSpace c) := by
      rw [← List.filter_append, hardSplit_flatten limit s]
    split
    next =>
      rw [ih, filter_pyStrip]
      simp [List.filter_append, List.filter_cons, pyIsSpace_space, List.append_assoc]
    next =>
      rw [ih]
      by_cases hc0 : cur = []
      · simp [hc0, appendIf, List.flatten_append, List.filter_append,
          List.append_assoc, ← h3]
      · simp [appendIf_ne _ hc0, List.flatten_append, List.filter_append,
          List.append_assoc, ← h3]

theorem reSplitGo_flatten_filter : ∀ (l acc : List Char),
    (reSplitGo l acc).flatten.filter (fun c => !pyIsSpace c) =
      acc.reverse.filter (fun c => !pyIsSpace c) ++ l.filter (fun c => !pyIsSpace c)
  | [], acc => by
    simp [reSplitGo]
  | c :: rest, [] => by
    rw [reSplitGo, reSplitGo_flatten_filter rest [c]]
    by_cases hc : pyIsSpace c <;> simp [List.filter_cons, hc]
  | c :: rest, p :: acc => by
    rw [reSplitGo]
    by_cases h : isPunct p && pyIsSpace c
    · rw [if_pos h]
      have hc : pyIsSpace c = true := (Bool.and_eq_true _ _).mp h |>.2
      simp only [List.flatten_cons, List.filter_append]
      rw [reSplitGo_flatten_filter (rest.dropWhile pyIsSpace) []]
      simp only [List.reverse_nil, List.filter_nil, List.nil_append]
      rw [filter_dropWhile_space]
      rw [List.filter_cons]
      simp [hc]
    · rw [if_neg h, reSplitGo_flatten_filter rest (c :: p :: acc)]
      simp only [List.reverse_cons, List.filter_append, List.filter_cons,
        List.append_assoc]
      by_cases hc : pyIsSpace c <;> simp [hc]
termination_by l _ => l.length
decreasing_by
  all_goals simp only [List.length_cons]
  all_goals first
    | omega
    | exact Nat.lt_succ_of_le (List.dropWhile_sublist pyIsSpace).length_le

theorem reSplit_flatten_filter (l : List Char) :
    (reSplit l).flatten.filter (fun c => !pyIsSpace c) =
      l.filter (fun c => !pyIsSpace c) := by
  unfold reSplit
  rw [reSplitGo_flatten_filter]
  simp

/-- C3: for positive `limit`, every chunk returned by `split_text_for_murf`
has length at most `limit`; an empty or whitespace-only input yields exactly
`[""]`, and otherwise no chunk is empty. -/
theorem split_chunk_bounds (text : List Char) (limit : Nat) (hl : 0 < limit) :
    (∀ c ∈ split_text_for_murf text limit, c.length ≤ limit) ∧
    (pyStrip text = [] → split_text_for_murf text limit = [[]]) ∧
    (pyStrip text ≠ [] → ∀ c ∈ split_text_for_murf text limit, c ≠ []) := by
  unfold split_text_for_murf
  by_cases h0 : pyStrip text = []
  · rw [if_pos h0]
    refine ⟨?_, fun _ => rfl, fun hne => absurd h0 hne⟩
    intro c hc
    rw [List.mem_singleton.mp hc]
    simp
  · rw [if_neg h0]
    by_cases h1 : (pyStrip text).length ≤ limit
    · rw [if_pos h1]
      refine ⟨?_, fun he => absurd he h0, fun _ c hc => ?_⟩
      · intro c hc
        rw [List.mem_singleton.mp hc]
        exact h1
      · rw [List.mem_singleton.mp hc]
        exact h0
    · rw [if_neg h1]
      have hb := buildChunks_mem limit hl (reSplit (pyStrip text)) [] []
        (by intro c hc; simp at hc) (by simp)
      exact ⟨fun c hc => (hb c hc).1, fun he => absurd he h0, fun _ c hc => (hb c hc).2⟩

/-- Witness for `split_chunk_bounds` at a concrete input. -/
theorem split_chunk_bounds_witness :
    0 < 10 ∧
      (∀ c ∈ split_text_for_murf "Hi there. How are you? I am fine!".data 10,
        c.length ≤ 10) :=
  ⟨by decide, (split_chunk_bounds "Hi there. How are you? I am fine!".data 10 (by decide)).1⟩

/-- C2 fails as stated: the chunker strips whitespace, so concatenating the
chunks of `" a"` gives `"a"`, not the original input. -/
theorem split_concat_counterexample :
    (split_text_for_murf (' ' :: ['a']) 3000).flatten ≠ ' ' :: ['a'] := by
  decide

/-- C2 (amended): concatenating all chunks preserves the input's
non-whitespace characters in order, none dropped or duplicated (whitespace
may be trimmed at the ends, collapsed between sentences, or dropped at
chunk boundaries). -/
theorem split_concat_nonspace (text : List Char) (limit : Nat) (hl : 0 < limit) :
    (split_text_for_murf text limit).flatten.filter (fun c => !pyIsSpace c) =
      text.filter (fun c => !pyIsSpace c) := by
  unfold split_text_for_murf
  by_cases h0 : pyStrip text = []
  · rw [if_pos h0, ← filter_pyStrip text, h0]
    rfl
  · rw [if_neg h0]
    by_cases h1 : (pyStrip text).length ≤ limit
    · rw [if_pos h1]
      simp only [List.flatten_cons, List.flatten_nil, List.append_nil]
      exact filter_pyStrip text
    · rw [if_neg h1]
      rw [buildChunks_flatten_filter]
      simp only [List.flatten_nil, List.filter_nil, List.nil_append]
      rw [reSplit_flatten_filter, filter_pyStrip]

/-- Witness for `split_concat_nonspace` at a concrete input. -/
theorem split_concat_nonspace_witness :
    0 < 10 ∧
      ((split_text_for_murf "Hi there. How are you? I am fine!".data 10).flatten.filter
          (fun c => !pyIsSpace c) =
        "Hi there. How are you? I am fine!".data.filter (fun c => !pyIsSpace c)) :=
  ⟨by decide, split_concat_nonspace "Hi there. How are you? I am fine!".data 10 (by decide)⟩

theorem dropWhile_of_no_space {l : List Char} (h : ∀ c ∈ l, pyIsSpace c = false) :
    l.dropWhile pyIsSpace = l := by
  cases l with
  | nil => rfl
  | cons a l =>
    rw [List.dropWhile_cons, h a (List.mem_cons_self a l)]
    simp

theorem pyStrip_of_no_space {l : List Char} (h : ∀ c ∈ l, pyIsSpace c = false) :
    pyStrip l = l := by
  unfold pyStrip
  rw [dropWhile_of_no_space h,
    dropWhile_of_no_space (fun c hc => h c (List.mem_reverse.mp hc)),
    List.reverse_reverse]

theorem reSplitGo_no_split : ∀ (l : List Char), (∀ c ∈ l, pyIsSpace c = false) →
    ∀ acc, reSplitGo l acc = [acc.reverse ++ l]
  | [], _, acc => by simp [reSplitGo]
  | c :: rest, h, acc => by
    have hrest : ∀ d ∈ rest, pyIsSpace d = false :=
      fun d hd => h d (List.mem_cons_of_mem c hd)
    have hc : pyIsSpace c = false := h c (List.mem_cons_self c rest)
    match acc with
    | [] =>
      rw [reSplitGo, reSplitGo_no_split rest hrest [c]]
      simp
    | p :: acc =>
      rw [reSplitGo, if_neg (by rw [hc]; simp),
        reSplitGo_no_split rest hrest (c :: p :: acc)]
      simp

theorem take_replicate_a (m n : Nat) :
    (List.replicate n 'a').take m = List.replicate (min m n) 'a' := by
  apply List.eq_replicate_iff.mpr
  constructor
  · rw [List.length_take, List.length_replicate]
  · intro b hb
    exact List.eq_of_mem_replicate (List.take_subset _ _ hb)

theorem drop_replicate_a (m n : Nat) :
    (List.replicate n 'a').drop m = List.replicate (n - m) 'a' := by
  apply List.eq_replicate_iff.mpr
  constructor
  · rw [List.length_drop, List.length_replicate]
  · intro b hb
    exact List.eq_of_mem_replicate (List.drop_subset _ _ hb)

theorem hardSplit_replicate_step {n : Nat} (h1 : 3000 < n) :
    hardSplit 3000 (List.replicate n 'a') =
      (List.replicate 3000 'a' :: (hardSplit 3000 (List.replicate (n - 3000) 'a')).1,
        (hardSplit 3000 (List.replicate (n - 3000) 'a')).2) := by
  rw [hardSplit, dif_pos ⟨by omega, by rw [List.length_replicate]; omega⟩]
  rw [take_replicate_a, drop_replicate_a, Nat.min_eq_left (by omega : 3000 ≤ n)]

theorem hardSplit_replicate_1000 :
    hardSplit 3000 (List.replicate 1000 'a') = ([], List.replicate 1000 'a') := by
  rw [hardSplit, dif_neg (by rw [List.length_replicate]; omega)]

theorem hardSplit_replicate_10000 :
    hardSplit 3000 (List.replicate 10000 'a') =
      ([List.replicate 3000 'a', List.replicate 3000 'a', List.replicate 3000 'a'],
        List.replicate 1000 'a') := by
  have e1 : (10000 : Nat) - 3000 = 7000 := by omega
  have e2 : (7000 : Nat) - 3000 = 4000 := by omega
  have e3 : (4000 : Nat) - 3000 = 1000 := by omega
  rw [hardSplit_replicate_step (by omega), e1,
    hardSplit_replicate_step (by omega), e2,
    hardSplit_replicate_step (by omega), e3,
    hardSplit_replicate_1000]

/-- C8: a 10,000-character single sentence (no punctuation) with limit 3000
is hard-split into slices of lengths 3000, 3000, 3000, 1000, in order. -/
theorem split_hard_slices_10000 :
    split_text_for_murf (List.replicate 10000 'a') 3000 =
      [List.replicate 3000 'a', List.replicate 3000 'a', List.replicate 3000 'a',
        List.replicate 1000 'a'] ∧
    (split_text_for_murf (List.replicate 10000 'a') 3000).map List.length =
      [3000, 3000, 3000, 1000] := by
  have hns : ∀ c ∈ List.replicate 10000 'a', pyIsSpace c = false := by
    intro c hc
    rw [List.eq_of_mem_replicate hc]
    decide
  have hsplit : split_text_for_murf (List.replicate 10000 'a') 3000 =
      [List.replicate 3000 'a', List.replicate 3000 'a', List.replicate 3000 'a',
        List.replicate 1000 'a'] := by
    unfold split_text_for_murf
    rw [pyStrip_of_no_space hns,
      if_neg (by rw [List.replicate_eq_nil_iff]; omega),
      if_neg (by rw [List.length_replicate]; omega)]
    unfold reSplit
    rw [reSplitGo_no_split _ hns []]
    simp only [List.reverse_nil, List.nil_append]
    simp only [buildChunks]
    have hc1 : ¬(([] : List Char).length + (List.replicate 10000 'a').length
        + curSep ([] : List Char) ≤ 3000) := by
      rw [curSep_nil, List.length_replicate]
      simp
    have hrep1000 : List.replicate 1000 'a' ≠ ([] : List Char) := by
      rw [Ne, List.replicate_eq_nil_iff]
      omega
    rw [if_neg hc1, hardSplit_replicate_10000]
    dsimp only
    rw [appendIf_nil, List.nil_append]
    rw [appendIf_ne _ hrep1000]
    rfl
  exact ⟨hsplit, by
    rw [hsplit]
    simp only [List.map_cons, List.map_nil, List.length_replicate]⟩

/-!
Helper lemmas about the pipeline.
-/

theorem not_terminal_conds {env : Env} {raw : List Nat} (h : ¬ terminalFailure env raw) :
    raw ≠ [] ∧ (env.havePydub && !env.decode1 && !env.decode2) = false := by
  unfold terminalFailure at h
  obtain ⟨h1, h2⟩ := not_or.mp h
  refine ⟨h1, ?_⟩
  cases hp : env.havePydub <;> cases d1 : env.decode1 <;> cases d2 : env.decode2 <;>
    simp_all

theorem appendMsg_self (st : Store) (sid : String) (m : Msg) :
    appendMsg st sid m sid = st sid ++ [m] := by
  unfold appendMsg
  rw [if_pos rfl]

theorem appendMsg_other (st : Store) {sid s : String} (m : Msg) (h : s ≠ sid) :
    appendMsg st sid m s = st s := by
  unfold appendMsg
  rw [if_neg h]

theorem sttFallback_ne_empty : sttFallbackText ≠ "" := by decide

theorem llmFallback_ne_empty : llmFallbackText ≠ "" := by decide

theorem sttStage_ne_empty (env : Env) : sttStage env ≠ "" := by
  unfold sttStage
  split
  · exact sttFallback_ne_empty
  · dsimp only
    split
    · exact sttFallback_ne_empty
    · next hne => exact hne

theorem llmStage_ne_empty (env : Env) (p : String) : llmStage env p ≠ "" := by
  unfold llmStage
  split
  · exact llmFallback_ne_empty
  · dsimp only
    split
    · exact llmFallback_ne_empty
    · next hne => exact hne

theorem sttStage_of_fails {env : Env} (h : sttFails env) :
    sttStage env = sttFallbackText := by
  unfold sttStage
  rcases h with h | h | ⟨t, ht, hempty⟩
  · rw [h]
    rfl
  · cases hk : env.assemblyKey
    · rfl
    · rw [h]
      rfl
  · cases hk : env.assemblyKey
    · rfl
    · rw [ht]
      simp [hempty]

theorem llmStage_of_fails {env : Env} (h : llmFails env) (p : String) :
    llmStage env p = llmFallbackText := by
  unfold llmStage
  rcases h with h | h
  · rw [h]
    rfl
  · cases hk : env.geminiKey
    · rfl
    · rcases h p with hp | ⟨t, ht, hempty⟩
      · rw [hp]
        rfl
      · rw [ht]
        simp [hempty]

theorem agent_chat_terminal_eq (env : Env) (sid : String) (raw : List Nat)
    (voiceId : Option String) (st : Store) (h : terminalFailure env raw) :
    agent_chat env sid raw voiceId st =
      (Except.error (if raw = [] then HErr.http 400 "No audio data received."
        else HErr.http 500 "Server error"), st, []) := by
  unfold agent_chat
  by_cases hraw : raw = []
  · rw [if_pos hraw, if_pos hraw]
  · have hcond : (env.havePydub && !env.decode1 && !env.decode2) = true := by
      rcases h with h | ⟨h1, h2, h3⟩
      · exact absurd h hraw
      · rw [h1, h2, h3]
        rfl
    rw [if_neg hraw, if_neg hraw, if_pos hcond]

theorem agent_chat_shape (env : Env) (sid : String) (raw : List Nat)
    (voiceId : Option String) (st : Store) (h : ¬ terminalFailure env raw) :
    ∃ r, (agent_chat env sid raw voiceId st).1 = Except.ok r ∧
      r.session_id = sid ∧
      r.transcript = sttStage env ∧
      r.llm_text = llmStage env (promptOf
        ((appendMsg st sid ⟨"user", sttStage env⟩ sid).drop
          ((appendMsg st sid ⟨"user", sttStage env⟩ sid).length - 8))) ∧
      (agent_chat env sid raw voiceId st).2.1 =
        appendMsg (appendMsg st sid ⟨"user", sttStage env⟩) sid
          ⟨"assistant", r.llm_text⟩ := by
  obtain ⟨h1, h2⟩ := not_terminal_conds h
  unfold agent_chat
  rw [if_neg h1, if_neg (by rw [h2]; exact Bool.false_ne_true)]
  dsimp only
  split
  next url files heq =>
    exact ⟨_, rfl, rfl, rfl, rfl, rfl⟩
  next e heq =>
    exact ⟨_, rfl, rfl, rfl, rfl, rfl⟩

/-- C1: the request fails as a whole exactly under the two terminal
conditions (empty payload; both decode attempts fail while pydub is
present); any success carries a non-empty transcript and a non-empty
reply text. -/
theorem agent_chat_terminal_and_nonempty (env : Env) (sid : String) (raw : List Nat)
    (voiceId : Option String) (st : Store) :
    ((∃ e, (agent_chat env sid raw voiceId st).1 = Except.error e) ↔
      terminalFailure env raw) ∧
    ∀ r, (agent_chat env sid raw voiceId st).1 = Except.ok r →
      r.transcript ≠ "" ∧ r.llm_text ≠ "" := by
  constructor
  · constructor
    · rintro ⟨e, he⟩
      by_contra hterm
      obtain ⟨r, hr, _⟩ := agent_chat_shape env sid raw voiceId st hterm
      rw [hr] at he
      exact Except.noConfusion he
    · intro hterm
      rw [agent_chat_terminal_eq env sid raw voiceId st hterm]
      exact ⟨_, rfl⟩
  · intro r hr
    by_cases hterm : terminalFailure env raw
    · rw [agent_chat_terminal_eq env sid raw voiceId st hterm] at hr
      exact Except.noConfusion hr
    · obtain ⟨r2, hr2, _, ht, hl, _⟩ := agent_chat_shape env sid raw voiceId st hterm
      rw [hr2] at hr
      obtain rfl := Except.ok.inj hr
      rw [ht, hl]
      exact ⟨sttStage_ne_empty env, llmStage_ne_empty env _⟩

/-- Witness for `agent_chat_terminal_and_nonempty` at a concrete input. -/
theorem agent_chat_terminal_and_nonempty_witness :
    ((∃ e, (agent_chat env0 "s" [] none emptyStore).1 = Except.error e) ↔
      terminalFailure env0 []) ∧
    ∀ r, (agent_chat env0 "s" [] none emptyStore).1 = Except.ok r →
      r.transcript ≠ "" ∧ r.llm_text ≠ "" :=
  agent_chat_terminal_and_nonempty env0 "s" [] none emptyStore

/-- C9: a terminal input-stage failure leaves every session's history, and
the filesystem, untouched. -/
theorem agent_chat_terminal_preserves_store (env : Env) (sid : String)
    (raw : List Nat) (voiceId : Option String) (st : Store)
    (h : terminalFailure env raw) :
    (∃ e, (agent_chat env sid raw voiceId st).1 = Except.error e) ∧
    (agent_chat env sid raw voiceId st).2.1 = st ∧
    (∀ s, (agent_chat env sid raw voiceId st).2.1 s = st s) ∧
    (agent_chat env sid raw voiceId st).2.2 = [] := by
  rw [agent_chat_terminal_eq env sid raw voiceId st h]
  exact ⟨⟨_, rfl⟩, rfl, fun _ => rfl, rfl⟩

/-- Witness for `agent_chat_terminal_preserves_store` at a concrete input. -/
theorem agent_chat_terminal_preserves_store_witness :
    terminalFailure env0 [] ∧
    (agent_chat env0 "s" [] none emptyStore).2.1 = emptyStore :=
  ⟨Or.inl rfl,
    (agent_chat_terminal_preserves_store env0 "s" [] none emptyStore (Or.inl rfl)).2.1⟩

/-- C10: on success the returned transcript and llm_text are exactly the
contents of the user and assistant messages appended to the session's
history by the request. -/
theorem agent_chat_response_matches_history (env : Env) (sid : String)
    (raw : List Nat) (voiceId : Option String) (st : Store)
    (h : ¬ terminalFailure env raw) :
    ∃ r, (agent_chat env sid raw voiceId st).1 = Except.ok r ∧
      (agent_chat env sid raw voiceId st).2.1 sid =
        st sid ++ [⟨"user", r.transcript⟩, ⟨"assistant", r.llm_text⟩] := by
  obtain ⟨r, hr, _, ht, _, hst⟩ := agent_chat_shape env sid raw voiceId st h
  refine ⟨r, hr, ?_⟩
  rw [hst, appendMsg_self, appendMsg_self, ht, List.append_assoc]
  rfl

/-- Witness for `agent_chat_response_matches_history` at a concrete input. -/
theorem agent_chat_response_matches_history_witness :
    ¬ terminalFailure env0 [1] ∧
    ∃ r, (agent_chat env0 "s" [1] none emptyStore).1 = Except.ok r ∧
      (agent_chat env0 "s" [1] none emptyStore).2.1 "s" =
        emptyStore "s" ++ [⟨"user", r.transcript⟩, ⟨"assistant", r.llm_text⟩] :=
  ⟨by decide,
    agent_chat_response_matches_history env0 "s" [1] none emptyStore (by decide)⟩

/-- C4: every non-terminal chat request appends exactly a user message and
then an assistant message to its session, leaves all other sessions
untouched, and two completed turns on a fresh session give a 4-message
history with roles user, assistant, user, assistant. -/
theorem agent_chat_history_append (env : Env) (sid : String) (raw : List Nat)
    (voiceId : Option String) (st : Store) (h : ¬ terminalFailure env raw) :
    (∃ t l, (agent_chat env sid raw voiceId st).2.1 sid =
      st sid ++ [⟨"user", t⟩, ⟨"assistant", l⟩]) ∧
    (∀ s, s ≠ sid → (agent_chat env sid raw voiceId st).2.1 s = st s) ∧
    (∀ env2 raw2 v2, ¬ terminalFailure env2 raw2 →
      ((get_history
          (agent_chat env2 sid raw2 v2
            (agent_chat env sid raw voiceId emptyStore).2.1).2.1 sid).2).map Msg.role
        = ["user", "assistant", "user", "assistant"]) := by
  refine ⟨?_, ?_, ?_⟩
  · obtain ⟨r, _, _, _, _, hst⟩ := agent_chat_shape env sid raw voiceId st h
    refine ⟨sttStage env, r.llm_text, ?_⟩
    rw [hst, appendMsg_self, appendMsg_self, List.append_assoc]
    rfl
  · intro s hs
    obtain ⟨r, _, _, _, _, hst⟩ := agent_chat_shape env sid raw voiceId st h
    rw [hst, appendMsg_other _ _ hs, appendMsg_other _ _ hs]
  · intro env2 raw2 v2 h2
    obtain ⟨r1, _, _, _, _, hst1⟩ := agent_chat_shape env sid raw voiceId emptyStore h
    obtain ⟨r2, _, _, _, _, hst2⟩ :=
      agent_chat_shape env2 sid raw2 v2 (agent_chat env sid raw voiceId emptyStore).2.1 h2
    unfold get_history
    rw [hst2, appendMsg_self, appendMsg_self, hst1, appendMsg_self, appendMsg_self]
    simp [emptyStore]

/-- Witness for `agent_chat_history_append` at a concrete input. -/
theorem agent_chat_history_append_witness :
    ¬ terminalFailure env0 [1] ∧
    (∃ t l, (agent_chat env0 "s" [1] none emptyStore).2.1 "s" =
      emptyStore "s" ++ [⟨"user", t⟩, ⟨"assistant", l⟩]) :=
  ⟨by decide,
    (agent_chat_history_append env0 "s" [1] none emptyStore (by decide)).1⟩

/-- C5: when transcription fails, the user message recorded in history is
the fixed placeholder, and the request still succeeds with non-empty
llm_text. -/
theorem agent_chat_stt_fallback (env : Env) (sid : String) (raw : List Nat)
    (voiceId : Option String) (st : Store) (hstt : sttFails env)
    (h : ¬ terminalFailure env raw) :
    ∃ r, (agent_chat env sid raw voiceId st).1 = Except.ok r ∧
      r.transcript = sttFallbackText ∧
      (agent_chat env sid raw voiceId st).2.1 sid =
        st sid ++ [⟨"user", sttFallbackText⟩, ⟨"assistant", r.llm_text⟩] ∧
      r.llm_text ≠ "" := by
  obtain ⟨r, hr, _, ht, hl, hst⟩ := agent_chat_shape env sid raw voiceId st h
  have hf := sttStage_of_fails hstt
  refine ⟨r, hr, by rw [ht, hf], ?_, by rw [hl]; exact llmStage_ne_empty env _⟩
  rw [hst, appendMsg_self, appendMsg_self, hf, List.append_assoc]
  rfl

/-- Witness for `agent_chat_stt_fallback` at a concrete input. -/
theorem agent_chat_stt_fallback_witness :
    sttFails env0 ∧ ¬ terminalFailure env0 [1] ∧
    ∃ r, (agent_chat env0 "s" [1] none emptyStore).1 = Except.ok r ∧
      r.transcript = sttFallbackText ∧
      (agent_chat env0 "s" [1] none emptyStore).2.1 "s" =
        emptyStore "s" ++ [⟨"user", sttFallbackText⟩, ⟨"assistant", r.llm_text⟩] ∧
      r.llm_text ≠ "" :=
  ⟨Or.inl rfl, by decide,
    agent_chat_stt_fallback env0 "s" [1] none emptyStore (Or.inl rfl) (by decide)⟩

/-- C6: when the LLM call fails, the assistant message recorded in history
is the fixed apology string, and the same string is returned as llm_text. -/
theorem agent_chat_llm_fallback (env : Env) (sid : String) (raw : List Nat)
    (voiceId : Option String) (st : Store) (hllm : llmFails env)
    (h : ¬ terminalFailure env raw) :
    ∃ r, (agent_chat env sid raw voiceId st).1 = Except.ok r ∧
      r.llm_text = llmFallbackText ∧
      (agent_chat env sid raw voiceId st).2.1 sid =
        st sid ++ [⟨"user", r.transcript⟩, ⟨"assistant", llmFallbackText⟩] := by
  obtain ⟨r, hr, _, ht, hl, hst⟩ := agent_chat_shape env sid raw voiceId st h
  have hf := llmStage_of_fails hllm
  refine ⟨r, hr, by rw [hl, hf], ?_⟩
  rw [hst, appendMsg_self, appendMsg_self, hl, hf, ht, List.append_assoc]
  rfl

/-- Witness for `agent_chat_llm_fallback` at a concrete input. -/
theorem agent_chat_llm_fallback_witness :
    llmFails env0 ∧ ¬ terminalFailure env0 [1] ∧
    ∃ r, (agent_chat env0 "s" [1] none emptyStore).1 = Except.ok r ∧
      r.llm_text = llmFallbackText ∧
      (agent_chat env0 "s" [1] none emptyStore).2.1 "s" =
        emptyStore "s" ++ [⟨"user", r.transcript⟩, ⟨"assistant", llmFallbackText⟩] :=
  ⟨Or.inl rfl, by decide,
    agent_chat_llm_fallback env0 "s" [1] none emptyStore (Or.inl rfl) (by decide)⟩

theorem murf_generate_url_no_key {env : Env} (hk : env.murfKey = false)
    (p v : String) : murf_generate_url env p v = Except.error () := by
  unfold murf_generate_url
  rw [hk]
  rfl

theorem ttsStage_error_of_no_key {env : Env} (hk : env.murfKey = false) :
    ∀ text voice, ttsStage env text voice = Except.error () := by
  intro text voice
  unfold ttsStage
  dsimp only
  cases hp : env.havePydub
  · rw [if_neg Bool.false_ne_true]
    cases hparts : (split_text_for_murf text.data 3000).map String.mk with
    | nil => rfl
    | cons p ps =>
      dsimp only
      rw [murf_generate_url_no_key hk p voice]
  · rw [if_pos rfl]
    cases hparts : (split_text_for_murf text.data 3000).map String.mk with
    | nil => rfl
    | cons p ps =>
      unfold fetchSegs
      rw [murf_generate_url_no_key hk p voice]

/-- C7: when the whole speech-synthesis stage fails, the request still
succeeds; with pydub present, audio_url is the local path of the generated
dual-tone clip written to /static, and without pydub it is empty. -/
theorem agent_chat_tts_fallback (env : Env) (sid : String) (raw : List Nat)
    (voiceId : Option String) (st : Store)
    (htts : ∀ text voice, ttsStage env text voice = Except.error ())
    (h : ¬ terminalFailure env raw) :
    ∃ r, (agent_chat env sid raw voiceId st).1 = Except.ok r ∧
      r.audio_url = (fallback_tone_mp3 env).1 ∧
      (agent_chat env sid raw voiceId st).2.2 = (fallback_tone_mp3 env).2 ∧
      (env.havePydub = true →
        r.audio_url = save_audiosegment env.uuidFb ∧
        (agent_chat env sid raw voiceId st).2.2 =
          [(save_audiosegment env.uuidFb, fallbackToneSeg)]) ∧
      (env.havePydub = false → r.audio_url = "") := by
  obtain ⟨h1, h2⟩ := not_terminal_conds h
  unfold agent_chat
  rw [if_neg h1, if_neg (by rw [h2]; exact Bool.false_ne_true)]
  dsimp only
  rw [htts]
  refine ⟨_, rfl, rfl, rfl, ?_, ?_⟩
  · intro hp
    unfold fallback_tone_mp3
    rw [if_pos hp]
    exact ⟨rfl, rfl⟩
  · intro hp
    unfold fallback_tone_mp3
    rw [if_neg (by rw [hp]; exact Bool.false_ne_true)]

/-- Witness for `agent_chat_tts_fallback` at concrete inputs, covering both
the pydub-present and pydub-absent environments. -/
theorem agent_chat_tts_fallback_witness :
    (∀ text voice, ttsStage env0 text voice = Except.error ()) ∧
    ¬ terminalFailure env0 [1] ∧
    (∃ r, (agent_chat env0 "s" [1] none emptyStore).1 = Except.ok r ∧
      r.audio_url = (fallback_tone_mp3 env0).1 ∧
      (agent_chat env0 "s" [1] none emptyStore).2.2 = (fallback_tone_mp3 env0).2 ∧
      (env0.havePydub = true →
        r.audio_url = save_audiosegment env0.uuidFb ∧
        (agent_chat env0 "s" [1] none emptyStore).2.2 =
          [(save_audiosegment env0.uuidFb, fallbackToneSeg)]) ∧
      (env0.havePydub = false → r.audio_url = "")) ∧
    (∃ r, (agent_chat env1 "s" [1] none emptyStore).1 = Except.ok r ∧
      r.audio_url = (fallback_tone_mp3 env1).1 ∧
      (agent_chat env1 "s" [1] none emptyStore).2.2 = (fallback_tone_mp3 env1).2 ∧
      (env1.havePydub = true →
        r.audio_url = save_audiosegment env1.uuidFb ∧
        (agent_chat env1 "s" [1] none emptyStore).2.2 =
          [(save_audiosegment env1.uuidFb, fallbackToneSeg)]) ∧
      (env1.havePydub = false → r.audio_url = "")) :=
  ⟨ttsStage_error_of_no_key rfl, by decide,
    agent_chat_tts_fallback env0 "s" [1] none emptyStore
      (ttsStage_error_of_no_key rfl) (by decide),
    agent_chat_tts_fallback env1 "s" [1] none emptyStore
      (ttsStage_error_of_no_key rfl) (by decide)⟩
